import Mathlib

/-!
Shallow embedding of the free-text date extraction and scoring engine of
`v2.py` (functions `extract_date_from_response`, `calculate_accuracy_score`,
`generate_question_from_fact`, `test_model_for_hallucinations` and the data
classes `HistoricalFact` / `TestResult`), together with theorems settling the
specification claims about it.

Modelling conventions:
* Python strings are Lean `String`s, processed as their `List Char` data.
  Character classes (`\d`, `\w`, `\s`) are modelled at their ASCII meaning,
  which is exact for every string the program manipulates here.
* Python `float` scores are modelled in `ℚ` at the exact rational values of
  the IEEE-754 binary64 doubles the program computes: each decimal literal is
  taken at its nearest double, and the program's only float additions
  (`year_score + month_score + day_score`) are tabulated at their correctly
  rounded results — in particular `0.7 + 0.2 + 0.1` is
  `0.9999999999999999 = (2^53 - 1) / 2^53`, strictly below `1.0`.
* The Ollama transport and the random sampling of facts are external
  collaborators; the harness is modelled as a function of the selected fact
  list and of a query oracle `String → Option String` (`none` = transport
  failure, mirroring `query_ollama` returning `None`).
* Fallible Python operations (`datetime(...)` construction,
  `datetime.strptime`, regex search) are modelled with `Option`.
-/

namespace V2

/-! ## Character classes (ASCII fragment of Python's `\d`, `\w`, `\s`) -/

/-- Python regex `\d` (ASCII): characters `'0'`-`'9'`. -/
def isDigitChar (c : Char) : Bool := 48 ≤ c.toNat && c.toNat ≤ 57

/-- Python regex `\w` (ASCII): letters, digits and underscore. -/
def isWordChar (c : Char) : Bool :=
  isDigitChar c || (65 ≤ c.toNat && c.toNat ≤ 90) || (97 ≤ c.toNat && c.toNat ≤ 122) || c = '_'

/-- Python regex `\s` (ASCII): space, `\t`, `\n`, `\x0b`, `\x0c`, `\r`. -/
def isSpaceChar (c : Char) : Bool := c.toNat = 32 || (9 ≤ c.toNat && c.toNat ≤ 13)

/-- Numeric value of a digit character (Python `int` on a one-digit string). -/
def dval (c : Char) : Nat := c.toNat - 48

/-- The decimal digit character for `k < 10`. -/
def digitChar (k : Nat) : Char := Char.ofNat (48 + k)

/-- Python `str.isdigit` on the ASCII strings at hand: nonempty and all digits. -/
def strIsDigit (l : List Char) : Bool := !l.isEmpty && l.all isDigitChar

/-- Python `int(s)` on a string of decimal digits. -/
def strToNat (l : List Char) : Nat := l.foldl (fun a c => 10 * a + dval c) 0

/-! ## Decimal formatting (Python `"%d"` and zero-padding `"%0Nd"`) -/

/-- Decimal digit string of `n`, fuel-indexed so that the kernel can reduce it;
`natDigitsGo f n` is the digit string of `n` whenever `n ≤ f`. -/
def natDigitsGo : Nat → Nat → List Char
  | 0, n => [digitChar n]
  | f + 1, n => if n < 10 then [digitChar n] else natDigitsGo f (n / 10) ++ [digitChar (n % 10)]

/-- Decimal digit string of `n` (Python `str(n)` for `n ≥ 0`). -/
def natDigits (n : Nat) : List Char := natDigitsGo n n

/-- Python `f"{n:0wd}"`: decimal digits of `n` left-padded with `'0'` to width `w`. -/
def padZero (w n : Nat) : List Char :=
  List.replicate (w - (natDigits n).length) '0' ++ natDigits n

/-! ## Calendar validation (Python `datetime(year, month, day)` construction) -/

/-- Gregorian leap-year rule, as used by Python's `datetime`. -/
def isLeapYear (y : Nat) : Bool := y % 4 = 0 && (!(y % 100 = 0) || y % 400 = 0)

/-- Number of days in month `m` of year `y` (proleptic Gregorian). -/
def daysInMonth (y m : Nat) : Nat :=
  if m = 2 then (if isLeapYear y then 29 else 28)
  else if m = 4 || m = 6 || m = 9 || m = 11 then 30
  else 31

/-- Success condition of Python `datetime(y, m, d)`: `MINYEAR = 1 ≤ y ≤ 9999 =
MAXYEAR`, `1 ≤ m ≤ 12`, and `1 ≤ d` at most the month length. -/
def is_valid_date (y m d : Nat) : Bool :=
  1 ≤ y && y ≤ 9999 && 1 ≤ m && m ≤ 12 && 1 ≤ d && d ≤ daysInMonth y m

/-- The serialization `f"{year:04d}-{month:02d}-{day:02d}"` used by
`extract_date_from_response` on every validated candidate. -/
def format_date (y m d : Nat) : String :=
  String.mk (padZero 4 y ++ '-' :: (padZero 2 m ++ '-' :: padZero 2 d))

/-! ## Regex machinery for the five surface patterns of
`extract_date_from_response` (compiled with `re.IGNORECASE`):
1. `\b(\d{4})-(\d{1,2})-(\d{1,2})\b`
2. `\b(\d{1,2})/(\d{1,2})/(\d{4})\b`
3. `\b(January|...|December)\s+(\d{1,2}),?\s+(\d{4})\b`
4. `\b(\d{1,2})\s+(January|...|December)\s+(\d{4})\b`
5. `\b(\d{4})\b`
Each matcher below is the deterministic equivalent of its pattern anchored at
one position: `prev` is the character preceding the position (`none` at the
start of the string), used for the leading `\b`.  Backtracking elimination is
justified locally: wherever the regex engine could backtrack into a shorter
greedy alternative, the shorter alternative is immediately refuted by the
context (e.g. after a rejected two-digit `\d{1,2}` the one-digit alternative
faces a digit where a separator is required). -/

/-- Word-character test of an optional preceding character (start counts as non-word). -/
def wordOpt : Option Char → Bool
  | none => false
  | some c => isWordChar c

/-- Trailing `\b` after a word character: end of string or a non-word character next. -/
def boundaryAfter : List Char → Bool
  | [] => true
  | c :: _ => !isWordChar c

/-- Greedy `(\d{1,2})` followed by the literal separator `sep`; yields the
captured digits and the text after the separator. -/
def d12Sep (sep : Char) : List Char → Option (List Char × List Char)
  | [] => none
  | d1 :: rest =>
    if isDigitChar d1 then
      match rest with
      | [] => none
      | d2 :: rest2 =>
        if isDigitChar d2 then
          match rest2 with
          | [] => none
          | s :: rest3 => if s = sep then some ([d1, d2], rest3) else none
        else if d2 = sep then some ([d1], rest2) else none
    else none

/-- Greedy `(\d{1,2})\b`: captured digits plus the unconsumed text. -/
def d12Bound : List Char → Option (List Char × List Char)
  | [] => none
  | d1 :: rest =>
    if isDigitChar d1 then
      match rest with
      | [] => some ([d1], [])
      | d2 :: rest2 =>
        if isDigitChar d2 then
          if boundaryAfter rest2 then some ([d1, d2], rest2) else none
        else if !isWordChar d2 then some ([d1], rest) else none
    else none

/-- `(\d{4})\b`: exactly four digits followed by a boundary. -/
def d4Bound : List Char → Option (List Char × List Char)
  | a :: b :: c :: d :: rest =>
    if isDigitChar a && isDigitChar b && isDigitChar c && isDigitChar d && boundaryAfter rest
    then some ([a, b, c, d], rest) else none
  | _ => none

/-- Maximal run of whitespace removed from the front. -/
def consumeWS : List Char → List Char
  | [] => []
  | c :: rest => if isSpaceChar c then consumeWS rest else c :: rest

/-- `\s+`: at least one whitespace character, consumed greedily. -/
def ws1 : List Char → Option (List Char)
  | [] => none
  | c :: rest => if isSpaceChar c then some (consumeWS rest) else none

/-- Greedy `(\d{1,2})` followed by `\s+`. -/
def d12WS : List Char → Option (List Char × List Char)
  | [] => none
  | d1 :: rest =>
    if isDigitChar d1 then
      match rest with
      | [] => none
      | d2 :: rest2 =>
        if isDigitChar d2 then
          match ws1 rest2 with
          | some rest3 => some ([d1, d2], rest3)
          | none => none
        else
          match ws1 rest with
          | some rest3 => some ([d1], rest3)
          | none => none
    else none

/-- Optional comma then `\s+`: the `,?\s+` separator of pattern 3. -/
def commaWS : List Char → Option (List Char)
  | ',' :: r => ws1 r
  | l => ws1 l

/-- Greedy `(\d{1,2})` followed by `,?\s+` (pattern 3's day group). -/
def d12CommaWS : List Char → Option (List Char × List Char)
  | [] => none
  | d1 :: rest =>
    if isDigitChar d1 then
      match rest with
      | [] => none
      | d2 :: rest2 =>
        if isDigitChar d2 then
          match commaWS rest2 with
          | some rest3 => some ([d1, d2], rest3)
          | none => none
        else
          match commaWS rest with
          | some rest3 => some ([d1], rest3)
          | none => none
    else none

/-- The lowercase month names, in the regex's alternation order. -/
def monthNameList : List (List Char) :=
  ["january".data, "february".data, "march".data, "april".data, "may".data,
   "june".data, "july".data, "august".data, "september".data, "october".data,
   "november".data, "december".data]

/-- Case-insensitive match of one fixed name at the front of `l`; yields the raw
captured text (original case) and the remaining text. -/
def matchOneName (name : List Char) (l : List Char) : Option (List Char × List Char) :=
  let pre := l.take name.length
  if pre.length = name.length && pre.map Char.toLower = name
  then some (pre, l.drop name.length) else none

/-- The month-name alternation `(January|...|December)` with `re.IGNORECASE`
(no name is a prefix of another, so at most one branch can match). -/
def matchMonthName (l : List Char) : Option (List Char × List Char) :=
  monthNameList.findSome? (fun name => matchOneName name l)

/-- Pattern 1 `\b(\d{4})-(\d{1,2})-(\d{1,2})\b` anchored after `prev`. -/
def matchISOAt (prev : Option Char) (l : List Char) :
    Option (List Char × List Char × List Char) :=
  if wordOpt prev then none
  else
    match l with
    | a :: b :: c :: d :: '-' :: rest =>
      if isDigitChar a && isDigitChar b && isDigitChar c && isDigitChar d then
        match d12Sep '-' rest with
        | some (mo, rest2) =>
          match d12Bound rest2 with
          | some (dy, _) => some ([a, b, c, d], mo, dy)
          | none => none
        | none => none
      else none
    | _ => none

/-- Pattern 2 `\b(\d{1,2})/(\d{1,2})/(\d{4})\b` anchored after `prev`. -/
def matchSlashAt (prev : Option Char) (l : List Char) :
    Option (List Char × List Char × List Char) :=
  if wordOpt prev then none
  else
    match d12Sep '/' l with
    | some (mo, rest) =>
      match d12Sep '/' rest with
      | some (dy, rest2) =>
        match d4Bound rest2 with
        | some (yr, _) => some (mo, dy, yr)
        | none => none
      | none => none
    | none => none

/-- Pattern 3 `\b(MonthName)\s+(\d{1,2}),?\s+(\d{4})\b` anchored after `prev`. -/
def matchMonthFirstAt (prev : Option Char) (l : List Char) :
    Option (List Char × List Char × List Char) :=
  if wordOpt prev then none
  else
    match matchMonthName l with
    | some (raw, rest) =>
      match ws1 rest with
      | some rest1 =>
        match d12CommaWS rest1 with
        | some (dy, rest2) =>
          match d4Bound rest2 with
          | some (yr, _) => some (raw, dy, yr)
          | none => none
        | none => none
      | none => none
    | none => none

/-- Pattern 4 `\b(\d{1,2})\s+(MonthName)\s+(\d{4})\b` anchored after `prev`. -/
def matchDayFirstAt (prev : Option Char) (l : List Char) :
    Option (List Char × List Char × List Char) :=
  if wordOpt prev then none
  else
    match d12WS l with
    | some (dy, rest) =>
      match matchMonthName rest with
      | some (raw, rest2) =>
        match ws1 rest2 with
        | some rest3 =>
          match d4Bound rest3 with
          | some (yr, _) => some (dy, raw, yr)
          | none => none
        | none => none
      | none => none
    | none => none

/-- Pattern 5 `\b(\d{4})\b` anchored after `prev`. -/
def matchYearAt (prev : Option Char) (l : List Char) : Option (List Char) :=
  if wordOpt prev then none
  else
    match d4Bound l with
    | some (yr, _) => some yr
    | none => none

/-- Left-to-right scan of `re.findall`, returning the captured groups of the
leftmost match only (the code uses `matches[0]` exclusively). -/
def firstMatchAux {α : Type} (M : Option Char → List Char → Option α) :
    Option Char → List Char → Option α
  | prev, [] => M prev []
  | prev, c :: cs =>
    match M prev (c :: cs) with
    | some r => some r
    | none => firstMatchAux M (some c) cs

/-- Captured groups of the leftmost match of a pattern in the whole text. -/
def firstMatch {α : Type} (M : Option Char → List Char → Option α) (l : List Char) :
    Option α :=
  firstMatchAux M none l

/-! ## Date normalizer and extraction engine (`extract_date_from_response`) -/

/-- The fixed `month_names` dictionary of `extract_date_from_response`. -/
def month_names : List (List Char × Nat) :=
  [("january".data, 1), ("february".data, 2), ("march".data, 3), ("april".data, 4),
   ("may".data, 5), ("june".data, 6), ("july".data, 7), ("august".data, 8),
   ("september".data, 9), ("october".data, 10), ("november".data, 11), ("december".data, 12)]

/-- Lookup in `month_names` (Python `month_names[key]` / `key in month_names`). -/
def lookupMonth (key : List Char) : Option Nat := List.lookup key month_names

/-- Lowercasing (Python `str.lower` on the ASCII names at hand). -/
def toLowerList (l : List Char) : List Char := l.map Char.toLower

/-- The guarded `datetime(year, month, day)` validation followed by the
`f"{year:04d}-{month:02d}-{day:02d}"` serialization (lines 273-278 of the
source); `none` models the caught `ValueError`. -/
def checkAndFormat (y m d : Nat) : Option String :=
  if is_valid_date y m d then some (format_date y m d) else none

/-- Normalization of one three-group match (lines 258-278 of the source): the
numeric branch splits on `len(match[0]) == 4` (ISO vs slash group order),
the name branch resolves the month name on whichever of the first two groups
is the name.  The final `none` branch is unreachable for groups produced by
the five patterns (the source would raise an uncaught `KeyError` there). -/
def normalize3 : List Char × List Char × List Char → Option String
  | (g0, g1, g2) =>
    if strIsDigit g0 && strIsDigit g1 && strIsDigit g2 then
      if g0.length = 4 then checkAndFormat (strToNat g0) (strToNat g1) (strToNat g2)
      else checkAndFormat (strToNat g2) (strToNat g0) (strToNat g1)
    else
      match lookupMonth (toLowerList g0) with
      | some m => checkAndFormat (strToNat g2) m (strToNat g1)
      | none =>
        match lookupMonth (toLowerList g1) with
        | some m => checkAndFormat (strToNat g2) m (strToNat g0)
        | none => none

/-- The function `extract_date_from_response` of `v2.py`: try the five pattern
classes in precedence order; within a class only the leftmost match is
normalized (`matches[0]`), and a normalization failure `continue`s to the next
class.  Empty input (`if not response`) yields `none`.

Pattern 5 `\b(\d{4})\b` has a single capture group, so for it `re.findall`
returns plain strings and `match = matches[0]` is the four-character year text
itself, not a 1-tuple.  The dispatch tests `len(match) == 3` (line 258) and
`len(match) == 1 and match[0].isdigit() and len(match[0]) == 4` (line 280) are
both false for it: the captured year has four characters
(`matchYearAt_group_length`), and the second test is false for a string of any
length because `match[0]` is a one-character string, never of length 4.  The
loop body therefore falls through on every pattern-5 match — the bare-year
return `f"{match[0]}-01-01"` at line 282 is dead code — and the function ends
with `return None`. -/
def extract_date_from_response (response : String) : Option String :=
  if response = "" then none
  else
    let l := response.data
    match (firstMatch matchISOAt l).bind normalize3 with
    | some r => some r
    | none =>
      match (firstMatch matchSlashAt l).bind normalize3 with
      | some r => some r
      | none =>
        match (firstMatch matchMonthFirstAt l).bind normalize3 with
        | some r => some r
        | none =>
          match (firstMatch matchDayFirstAt l).bind normalize3 with
          | some r => some r
          | none => none

/-! ## `datetime.strptime(s, "%Y-%m-%d")` -/

/-- CPython's `%m` directive `(1[0-2]|0[1-9]|[1-9])`, deterministically (the
regex alternatives cannot overlap in context: after a rejected two-character
alternative the one-character one faces a digit where `-` is required). -/
def parseMonthTok : List Char → Option (Nat × List Char)
  | [] => none
  | c :: rest =>
    if c = '1' then
      match rest with
      | [] => some (1, [])
      | c2 :: rest2 =>
        if c2 = '0' || c2 = '1' || c2 = '2' then some (10 + dval c2, rest2)
        else some (1, rest)
    else if c = '0' then
      match rest with
      | [] => none
      | c2 :: rest2 =>
        if isDigitChar c2 && !(c2 = '0') then some (dval c2, rest2) else none
    else if isDigitChar c then some (dval c, rest)
    else none

/-- CPython's `%d` directive `(3[0-1]|[1-2]\d|0[1-9]|[1-9]| [1-9])`,
deterministically (the last alternative is a space-padded day; the
alternatives are mutually exclusive on their first character). -/
def parseDayTok : List Char → Option (Nat × List Char)
  | [] => none
  | c :: rest =>
    if c = ' ' then
      match rest with
      | [] => none
      | c2 :: rest2 =>
        if isDigitChar c2 && !(c2 = '0') then some (dval c2, rest2) else none
    else if c = '3' then
      match rest with
      | [] => some (3, [])
      | c2 :: rest2 =>
        if c2 = '0' || c2 = '1' then some (30 + dval c2, rest2)
        else some (3, rest)
    else if c = '1' || c = '2' then
      match rest with
      | [] => some (dval c, [])
      | c2 :: rest2 =>
        if isDigitChar c2 then some (10 * dval c + dval c2, rest2)
        else some (dval c, rest)
    else if c = '0' then
      match rest with
      | [] => none
      | c2 :: rest2 =>
        if isDigitChar c2 && !(c2 = '0') then some (dval c2, rest2) else none
    else if isDigitChar c then some (dval c, rest)
    else none

/-- Python `datetime.strptime(s, "%Y-%m-%d")`: `%Y` is exactly four digits,
then a literal `-`, `%m`, `-`, `%d`, the whole string consumed, followed by
`datetime` construction which validates the calendar date.  `none` models the
raised `ValueError`. -/
def strptime_Ymd (s : String) : Option (Nat × Nat × Nat) :=
  match s.data with
  | c1 :: c2 :: c3 :: c4 :: '-' :: rest =>
    if isDigitChar c1 && isDigitChar c2 && isDigitChar c3 && isDigitChar c4 then
      match parseMonthTok rest with
      | some (m, '-' :: rest2) =>
        match parseDayTok rest2 with
        | some (d, []) =>
          let y := strToNat [c1, c2, c3, c4]
          if is_valid_date y m d then some (y, m, d) else none
        | _ => none
      | _ => none
    else none
  | _ => none

/-! ## Scoring engine (`calculate_accuracy_score`)

The source computes confidences in IEEE-754 binary64 floats.  Every float the
function can return is modelled below as the exact rational value of the
corresponding double:

* the decimal literals `0.3`, `0.1`, `0.05`, `0.01` and `0.7` at their nearest
  doubles (the value a Python float literal denotes);
* the left-to-right sum `year_score + month_score + day_score`, whose
  summands are `0.7`, `0.2`/`0.0` and `0.1`/`0.0`: adding `0.0` to a double is
  exact, so the four reachable results are `0.7`, `fl(0.7 + 0.2)`,
  `fl(0.7 + 0.1)` and `fl(fl(0.7 + 0.2) + 0.1)` with `fl` the binary64
  rounding; the three rounded sums are tabulated below.  Notably
  `0.7 + 0.2 + 0.1 = 0.9999999999999999 = (2^53 - 1)/2^53 < 1.0`.
-/

/-- The binary64 double nearest `0.7` (value of the literal `0.7`). -/
def float_0_7 : ℚ := 3152519739159347 / 4503599627370496

/-- The binary64 double nearest `0.3` (value of the literal `0.3`). -/
def float_0_3 : ℚ := 5404319552844595 / 18014398509481984

/-- The binary64 double nearest `0.1` (value of the literal `0.1`). -/
def float_0_1 : ℚ := 3602879701896397 / 36028797018963968

/-- The binary64 double nearest `0.05` (value of the literal `0.05`). -/
def float_0_05 : ℚ := 3602879701896397 / 72057594037927936

/-- The binary64 double nearest `0.01` (value of the literal `0.01`). -/
def float_0_01 : ℚ := 5764607523034235 / 576460752303423488

/-- The binary64 evaluation of `0.7 + 0.2`: `0.8999999999999999`. -/
def float_0_7_plus_0_2 : ℚ := 2026619832316723 / 2251799813685248

/-- The binary64 evaluation of `0.7 + 0.1`: `0.7999999999999999`. -/
def float_0_7_plus_0_1 : ℚ := 7205759403792793 / 9007199254740992

/-- The binary64 evaluation of `0.7 + 0.2 + 0.1`: `0.9999999999999999`,
one unit in the last place below `1.0`. -/
def float_0_7_plus_0_2_plus_0_1 : ℚ := 9007199254740991 / 9007199254740992

/-- The function `calculate_accuracy_score` of `v2.py`, with each float score
at the exact rational value of the double the source computes (see the
section comment above; the bonus branch tabulates the source's
`year_score + month_score + day_score` by its two boolean summand choices).
The falsy guard (`if not extracted_date or not ground_truth_date`) catches
`None` and the empty string; a `strptime` failure on either argument is the
caught `ValueError` branch. -/
def calculate_accuracy_score (extracted_date ground_truth_date : Option String) :
    Bool × ℚ :=
  if extracted_date = none ∨ extracted_date = some "" ∨
     ground_truth_date = none ∨ ground_truth_date = some "" then (false, 0)
  else
    match extracted_date, ground_truth_date with
    | some e, some g =>
      match strptime_Ymd e, strptime_Ymd g with
      | some (ey, em, ed), some (gy, gm, gd) =>
        let year_correct : Bool := ey = gy
        let full_date_correct : Bool := e = g
        let confidence : ℚ :=
          if full_date_correct then 1
          else if year_correct then
            if em = gm then
              (if ed = gd then float_0_7_plus_0_2_plus_0_1 else float_0_7_plus_0_2)
            else
              (if ed = gd then float_0_7_plus_0_1 else float_0_7)
          else
            let year_diff := ((ey : ℤ) - (gy : ℤ)).natAbs
            if year_diff ≤ 1 then float_0_3
            else if year_diff ≤ 5 then float_0_1
            else if year_diff ≤ 10 then float_0_05
            else float_0_01
        (year_correct, confidence)
      | _, _ => (false, 0)
    | _, _ => (false, 0)

/-! ## Data classes and evaluation harness -/

/-- The `HistoricalFact` dataclass. -/
structure HistoricalFact where
  event : String
  date : String
  year : Nat
  month : Nat
  day : Nat
  category : String := "general"
deriving DecidableEq, Repr

/-- The `TestResult` dataclass (confidence modelled in `ℚ`). -/
structure TestResult where
  fact : HistoricalFact
  question : String
  model_response : String
  extracted_date : Option String
  is_correct : Bool
  confidence_score : ℚ
deriving DecidableEq, Repr

/-- Python `sub in s` on strings. -/
def listStartsWith : List Char → List Char → Bool
  | _, [] => true
  | [], _ :: _ => false
  | c :: cs, d :: ds => c = d && listStartsWith cs ds

/-- Python `sub in s` on strings (substring containment). -/
def listContainsSub : List Char → List Char → Bool
  | [], sub => sub.isEmpty
  | c :: t, sub => listStartsWith (c :: t) sub || listContainsSub t sub

/-- Python `sub in s` lifted to `String`. -/
def strContains (s sub : String) : Bool := listContainsSub s.data sub.data

/-- The function `generate_question_from_fact` of `v2.py`: a fixed
keyword-to-question rule chain over the lowercased event text, with a generic
fallback embedding the raw event text. -/
def generate_question_from_fact (fact : HistoricalFact) : String :=
  let event_lower := String.map Char.toLower fact.event
  if strContains event_lower "assassinated" then "When was JFK assassinated?"
  else if strContains event_lower "moon landing" || strContains event_lower "apollo" then
    "When did the first moon landing occur?"
  else if strContains event_lower "world war ii" || strContains event_lower "germany's surrender" then
    "When did World War II end in Europe?"
  else if strContains event_lower "titanic" then "When did the Titanic sink?"
  else if strContains event_lower "declaration of independence" then
    "When was the Declaration of Independence adopted?"
  else if strContains event_lower "berlin wall" then "When did the Berlin Wall fall?"
  else if strContains event_lower "wright brothers" || strContains event_lower "first flight" then
    "When did the Wright brothers make their first powered flight?"
  else if strContains event_lower "hiroshima" || strContains event_lower "atomic bomb" then
    "When was the atomic bomb dropped on Hiroshima?"
  else if strContains event_lower "great depression" || strContains event_lower "stock market crash" then
    "When did the Great Depression begin?"
  else if strContains event_lower "iphone" then "When was the first iPhone released?"
  else "When did this event occur: " ++ fact.event ++ "?"

/-- The curated fallback list `get_sample_historical_facts` of `v2.py`. -/
def get_sample_historical_facts : List HistoricalFact :=
  [⟨"John F. Kennedy was assassinated in Dallas, Texas", "1963-11-22", 1963, 11, 22, "politics"⟩,
   ⟨"The first moon landing occurred with Apollo 11", "1969-07-20", 1969, 7, 20, "space"⟩,
   ⟨"World War II ended in Europe with Germany's surrender", "1945-05-08", 1945, 5, 8, "war"⟩,
   ⟨"The Titanic sank after hitting an iceberg", "1912-04-15", 1912, 4, 15, "disaster"⟩,
   ⟨"The Declaration of Independence was adopted by the Continental Congress", "1776-07-04", 1776, 7, 4, "politics"⟩,
   ⟨"The Berlin Wall fell, marking the end of the Cold War era", "1989-11-09", 1989, 11, 9, "politics"⟩,
   ⟨"The Wright brothers made their first powered flight", "1903-12-17", 1903, 12, 17, "aviation"⟩,
   ⟨"The atomic bomb was dropped on Hiroshima", "1945-08-06", 1945, 8, 6, "war"⟩,
   ⟨"The Great Depression began with the stock market crash", "1929-10-29", 1929, 10, 29, "economics"⟩,
   ⟨"The first iPhone was released by Apple", "2007-06-29", 2007, 6, 29, "technology"⟩]

/-- The per-fact loop of `test_model_for_hallucinations` of `v2.py`.  The
random sampling (`random.sample`) and the Ollama transport are external
collaborators: the function is parameterized by the selected fact list and by
a query oracle (`none` models `query_ollama` returning `None` on a transport
failure).  When the query fails, the loop body hits `continue`: the fact is
skipped and NO result is appended. -/
def test_model_for_hallucinations (selected_facts : List HistoricalFact)
    (query : String → Option String) : List TestResult :=
  match selected_facts with
  | [] => []
  | fact :: rest =>
    let question := generate_question_from_fact fact
    match query question with
    | none => test_model_for_hallucinations rest query
    | some response =>
      let extracted := extract_date_from_response response
      let sc := calculate_accuracy_score extracted (some fact.date)
      { fact := fact, question := question, model_response := response,
        extracted_date := extracted, is_correct := sc.1, confidence_score := sc.2 } ::
        test_model_for_hallucinations rest query

/-! ## Helper lemmas: digits and zero-padding -/

theorem isDigitChar_digitChar {k : Nat} (h : k < 10) : isDigitChar (digitChar k) = true := by
  unfold digitChar
  interval_cases k <;> decide

theorem dval_digitChar {k : Nat} (h : k < 10) : dval (digitChar k) = k := by
  unfold digitChar dval
  interval_cases k <;> decide

theorem isDigitChar_digitChar_mod (k : Nat) : isDigitChar (digitChar (k % 10)) = true :=
  isDigitChar_digitChar (Nat.mod_lt _ (by omega))

theorem isDigitChar_bounds {c : Char} (h : isDigitChar c = true) :
    48 ≤ c.toNat ∧ c.toNat ≤ 57 := by
  unfold isDigitChar at h
  simp only [Bool.and_eq_true, decide_eq_true_eq] at h
  exact h

theorem dval_lt_10 {c : Char} (h : isDigitChar c = true) : dval c < 10 := by
  have := isDigitChar_bounds h
  unfold dval
  omega

theorem digitChar_dval {c : Char} (h : isDigitChar c = true) : digitChar (dval c) = c := by
  have hb := isDigitChar_bounds h
  unfold digitChar dval
  have : 48 + (c.toNat - 48) = c.toNat := by omega
  rw [this, Char.ofNat_toNat]

theorem strToNat_append_single (l : List Char) (c : Char) :
    strToNat (l ++ [c]) = 10 * strToNat l + dval c := by
  unfold strToNat
  rw [List.foldl_append]
  rfl

theorem natDigitsGo_strToNat : ∀ f n, n ≤ f → strToNat (natDigitsGo f n) = n := by
  intro f
  induction f with
  | zero =>
    intro n hn
    have : n = 0 := by omega
    subst this
    simp [natDigitsGo, strToNat, dval_digitChar (by omega : (0:Nat) < 10)]
  | succ f ih =>
    intro n hn
    unfold natDigitsGo
    by_cases h10 : n < 10
    · simp [h10, strToNat, dval_digitChar h10]
    · have hdiv : n / 10 ≤ f := by
        have : n / 10 < n := Nat.div_lt_self (by omega) (by omega)
        omega
      simp only [h10, if_false]
      rw [strToNat_append_single, ih _ hdiv, dval_digitChar (Nat.mod_lt _ (by omega))]
      omega

theorem natDigitsGo_all_digits : ∀ f n, n ≤ f → (natDigitsGo f n).all isDigitChar = true := by
  intro f
  induction f with
  | zero =>
    intro n hn
    have : n = 0 := by omega
    subst this
    simp [natDigitsGo, isDigitChar_digitChar (by omega : (0:Nat) < 10)]
  | succ f ih =>
    intro n hn
    unfold natDigitsGo
    by_cases h10 : n < 10
    · simp [h10, isDigitChar_digitChar h10]
    · have hdiv : n / 10 ≤ f := by
        have : n / 10 < n := Nat.div_lt_self (by omega) (by omega)
        omega
      simp only [h10, if_false, List.all_append, Bool.and_eq_true]
      exact ⟨ih _ hdiv, by simp [isDigitChar_digitChar_mod]⟩

theorem natDigitsGo_length_le : ∀ f n k, n ≤ f → 1 ≤ k → n < 10 ^ k →
    (natDigitsGo f n).length ≤ k := by
  intro f
  induction f with
  | zero =>
    intro n k hn hk _
    have : n = 0 := by omega
    subst this
    simpa [natDigitsGo] using hk
  | succ f ih =>
    intro n k hn hk hlt
    unfold natDigitsGo
    by_cases h10 : n < 10
    · simpa [h10] using hk
    · have hdiv : n / 10 ≤ f := by
        have : n / 10 < n := Nat.div_lt_self (by omega) (by omega)
        omega
      have hk2 : 2 ≤ k := by
        by_contra hcon
        have : k = 1 := by omega
        subst this
        simp at hlt
        omega
      have hdivlt : n / 10 < 10 ^ (k - 1) := by
        rw [Nat.div_lt_iff_lt_mul (by omega : 0 < 10)]
        calc n < 10 ^ k := hlt
        _ = 10 ^ (k - 1) * 10 := by
            rw [← Nat.pow_succ]
            congr 1
            omega
      have := ih (n / 10) (k - 1) hdiv (by omega) hdivlt
      simp only [h10, if_false, List.length_append, List.length_cons, List.length_nil]
      omega

theorem strToNat_replicate_zero_append (k : Nat) (l : List Char) :
    strToNat (List.replicate k '0' ++ l) =
      List.foldl (fun a c => 10 * a + dval c) 0 l := by
  unfold strToNat
  rw [List.foldl_append]
  congr 1
  induction k with
  | zero => rfl
  | succ k ih => simpa [List.replicate_succ, dval] using ih

theorem padZero_strToNat (w n : Nat) : strToNat (padZero w n) = n := by
  unfold padZero
  rw [strToNat_replicate_zero_append]
  exact natDigitsGo_strToNat n n (le_refl n)

theorem padZero_all_digits (w n : Nat) : (padZero w n).all isDigitChar = true := by
  unfold padZero
  simp only [List.all_append, Bool.and_eq_true]
  constructor
  · have hrep : ∀ k : Nat, (List.replicate k '0').all isDigitChar = true := by
      intro k
      induction k with
      | zero => rfl
      | succ k ih =>
        rw [List.replicate_succ, List.all_cons, ih]
        decide
    exact hrep _
  · exact natDigitsGo_all_digits n n (le_refl n)

theorem padZero_length {w n : Nat} (hk : 1 ≤ w) (h : n < 10 ^ w) :
    (padZero w n).length = w := by
  unfold padZero
  have hle := natDigitsGo_length_le n n w (le_refl n) hk h
  simp only [List.length_append, List.length_replicate]
  unfold natDigits at hle ⊢
  omega

/-- Reconstruction: a four-character digit string is determined by its value. -/
theorem digits4_eq {l : List Char} (hd : l.all isDigitChar = true) (hl : l.length = 4) :
    l = [digitChar (strToNat l / 1000 % 10), digitChar (strToNat l / 100 % 10),
         digitChar (strToNat l / 10 % 10), digitChar (strToNat l % 10)] := by
  match l, hl with
  | [a, b, c, d], _ =>
    simp only [List.all_cons, List.all_nil, Bool.and_eq_true, Bool.and_true] at hd
    obtain ⟨ha, hb, hc, hdd⟩ := hd
    have hva := dval_lt_10 ha
    have hvb := dval_lt_10 hb
    have hvc := dval_lt_10 hc
    have hvd := dval_lt_10 hdd
    have hval : strToNat [a, b, c, d] =
        1000 * dval a + 100 * dval b + 10 * dval c + dval d := by
      unfold strToNat
      simp only [List.foldl_cons, List.foldl_nil]
      ring
    rw [hval]
    have e1 : (1000 * dval a + 100 * dval b + 10 * dval c + dval d) / 1000 % 10 = dval a := by
      omega
    have e2 : (1000 * dval a + 100 * dval b + 10 * dval c + dval d) / 100 % 10 = dval b := by
      omega
    have e3 : (1000 * dval a + 100 * dval b + 10 * dval c + dval d) / 10 % 10 = dval c := by
      omega
    have e4 : (1000 * dval a + 100 * dval b + 10 * dval c + dval d) % 10 = dval d := by
      omega
    rw [e1, e2, e3, e4, digitChar_dval ha, digitChar_dval hb, digitChar_dval hc,
      digitChar_dval hdd]

/-- Reconstruction: a two-character digit string is determined by its value. -/
theorem digits2_eq {l : List Char} (hd : l.all isDigitChar = true) (hl : l.length = 2) :
    l = [digitChar (strToNat l / 10 % 10), digitChar (strToNat l % 10)] := by
  match l, hl with
  | [a, b], _ =>
    simp only [List.all_cons, List.all_nil, Bool.and_eq_true, Bool.and_true] at hd
    obtain ⟨ha, hb⟩ := hd
    have hva := dval_lt_10 ha
    have hvb := dval_lt_10 hb
    have hval : strToNat [a, b] = 10 * dval a + dval b := by
      unfold strToNat
      simp only [List.foldl_cons, List.foldl_nil]
      ring
    rw [hval]
    have e1 : (10 * dval a + dval b) / 10 % 10 = dval a := by omega
    have e2 : (10 * dval a + dval b) % 10 = dval b := by omega
    rw [e1, e2, digitChar_dval ha, digitChar_dval hb]

theorem digits4_le {l : List Char} (hd : l.all isDigitChar = true) (hl : l.length = 4) :
    strToNat l ≤ 9999 := by
  match l, hl with
  | [a, b, c, d], _ =>
    simp only [List.all_cons, List.all_nil, Bool.and_eq_true, Bool.and_true] at hd
    obtain ⟨ha, hb, hc, hdd⟩ := hd
    have hva := dval_lt_10 ha
    have hvb := dval_lt_10 hb
    have hvc := dval_lt_10 hc
    have hvd := dval_lt_10 hdd
    have hval : strToNat [a, b, c, d] =
        1000 * dval a + 100 * dval b + 10 * dval c + dval d := by
      unfold strToNat
      simp only [List.foldl_cons, List.foldl_nil]
      ring
    omega

/-- A four-character digit string is restored by zero-padding its value to width 4. -/
theorem padZero4_strToNat_id {l : List Char} (hd : l.all isDigitChar = true)
    (hl : l.length = 4) : padZero 4 (strToNat l) = l := by
  have hle : strToNat l < 10 ^ 4 := by
    have := digits4_le hd hl
    omega
  have h1 := digits4_eq (padZero_all_digits 4 (strToNat l)) (padZero_length (by omega) hle)
  rw [h1, padZero_strToNat]
  exact (digits4_eq hd hl).symm

/-! ## Helper lemmas: matchers, normalizer, extraction -/

theorem firstMatch_of_matchAt0 {α : Type} (M : Option Char → List Char → Option α)
    (l : List Char) (x : α) (h : M none l = some x) : firstMatch M l = some x := by
  cases l <;> simp [firstMatch, firstMatchAux, h]

theorem firstMatchAux_some_exists {α : Type} {M : Option Char → List Char → Option α} {x : α} :
    ∀ {l : List Char} {prev : Option Char}, firstMatchAux M prev l = some x →
      ∃ p l', M p l' = some x := by
  intro l
  induction l with
  | nil =>
    intro prev h
    exact ⟨prev, [], h⟩
  | cons c cs ih =>
    intro prev h
    unfold firstMatchAux at h
    split at h
    · next hm => exact ⟨prev, c :: cs, by rw [hm, h]⟩
    · exact ih h

theorem firstMatch_some_exists {α : Type} {M : Option Char → List Char → Option α}
    {l : List Char} {x : α} (h : firstMatch M l = some x) : ∃ p l', M p l' = some x :=
  firstMatchAux_some_exists h

theorem checkAndFormat_some {y m d : Nat} {r : String} (h : checkAndFormat y m d = some r) :
    is_valid_date y m d = true ∧ r = format_date y m d := by
  unfold checkAndFormat at h
  split at h
  · next hv => exact ⟨hv, (Option.some.injEq _ _ ▸ h).symm⟩
  · exact absurd h (by simp)

theorem normalize3_some {g : List Char × List Char × List Char} {r : String}
    (h : normalize3 g = some r) :
    ∃ y m d, is_valid_date y m d = true ∧ r = format_date y m d := by
  obtain ⟨g0, g1, g2⟩ := g
  unfold normalize3 at h
  repeat' split at h
  all_goals first
    | exact ⟨_, _, _, checkAndFormat_some h⟩
    | exact absurd h (by simp)

theorem d4Bound_some : ∀ {l g rest}, d4Bound l = some (g, rest) →
    g.all isDigitChar = true ∧ g.length = 4 := by
  intro l g rest h
  match l with
  | [] => exact Option.noConfusion h
  | [a] => exact Option.noConfusion h
  | [a, b] => exact Option.noConfusion h
  | [a, b, c] => exact Option.noConfusion h
  | a :: b :: c :: d :: tl =>
    have hred : d4Bound (a :: b :: c :: d :: tl) =
        if (isDigitChar a && isDigitChar b && isDigitChar c && isDigitChar d &&
            boundaryAfter tl) = true
        then some ([a, b, c, d], tl) else none := rfl
    rw [hred] at h
    by_cases hcond :
        (isDigitChar a && isDigitChar b && isDigitChar c && isDigitChar d &&
          boundaryAfter tl) = true
    · rw [if_pos hcond] at h
      have h2 := Option.some.inj h
      rw [Prod.mk.injEq] at h2
      obtain ⟨hg, -⟩ := h2
      subst hg
      simp only [Bool.and_eq_true] at hcond
      refine ⟨?_, rfl⟩
      simp [List.all_cons, hcond.1.1.1.1, hcond.1.1.1.2, hcond.1.1.2, hcond.1.2]
    · rw [if_neg hcond] at h
      exact Option.noConfusion h

theorem matchYearAt_some {p : Option Char} {l g : List Char}
    (h : matchYearAt p l = some g) : g.all isDigitChar = true ∧ g.length = 4 := by
  unfold matchYearAt at h
  split at h
  · exact absurd h (by simp)
  · split at h
    · next yr rest heq =>
      obtain rfl : yr = g := Option.some.injEq _ _ ▸ h
      exact d4Bound_some heq
    · exact absurd h (by simp)

/-- Dead-code fact for pattern 5: its captured group always has exactly four
characters, so the source's dispatch tests `len(match) == 3` and
`len(match) == 1` are both false for every pattern-5 match — the bare-year
return at v2.py line 282 is unreachable. -/
theorem matchYearAt_group_length {p : Option Char} {l g : List Char}
    (h : matchYearAt p l = some g) :
    g.length = 4 ∧ g.length ≠ 3 ∧ g.length ≠ 1 := by
  have h4 := (matchYearAt_some h).2
  omega

theorem format_date_ne_empty (y m d : Nat) : format_date y m d ≠ "" := by
  intro h
  have hdata := congrArg String.data h
  simp only [format_date] at hdata
  have : (padZero 4 y ++ '-' :: (padZero 2 m ++ '-' :: padZero 2 d)) = [] := hdata
  simp at this

theorem strIsDigit_of_all {l : List Char} (h : l.all isDigitChar = true) (hne : l ≠ []) :
    strIsDigit l = true := by
  unfold strIsDigit
  simp [h, hne]

theorem padZero_ne_nil {w n : Nat} (hw : 1 ≤ w) (h : n < 10 ^ w) : padZero w n ≠ [] := by
  intro hnil
  have := padZero_length hw h
  rw [hnil] at this
  simp at this
  omega

theorem matchISOAt_format {y m d : Nat} (hy : y ≤ 9999) (hm : m ≤ 99) (hd : d ≤ 99) :
    matchISOAt none (format_date y m d).data =
      some (padZero 4 y, padZero 2 m, padZero 2 d) := by
  have h4 := digits4_eq (padZero_all_digits 4 y)
    (padZero_length (by omega) (by omega : y < 10 ^ 4))
  have hm2 := digits2_eq (padZero_all_digits 2 m)
    (padZero_length (by omega) (by omega : m < 10 ^ 2))
  have hd2 := digits2_eq (padZero_all_digits 2 d)
    (padZero_length (by omega) (by omega : d < 10 ^ 2))
  rw [padZero_strToNat] at h4 hm2 hd2
  show matchISOAt none (padZero 4 y ++ '-' :: (padZero 2 m ++ '-' :: padZero 2 d)) = _
  rw [h4, hm2, hd2]
  simp [matchISOAt, wordOpt, d12Sep, d12Bound, boundaryAfter,
    isDigitChar_digitChar_mod]

theorem normalize3_mk (g0 g1 g2 : List Char) : normalize3 (g0, g1, g2) =
    (if strIsDigit g0 && strIsDigit g1 && strIsDigit g2 then
      if g0.length = 4 then checkAndFormat (strToNat g0) (strToNat g1) (strToNat g2)
      else checkAndFormat (strToNat g2) (strToNat g0) (strToNat g1)
    else
      match lookupMonth (toLowerList g0) with
      | some m => checkAndFormat (strToNat g2) m (strToNat g1)
      | none =>
        match lookupMonth (toLowerList g1) with
        | some m => checkAndFormat (strToNat g2) m (strToNat g0)
        | none => none) := rfl

theorem normalize3_format {y m d : Nat} (hy : y ≤ 9999) (hm : m ≤ 99) (hd : d ≤ 99) :
    normalize3 (padZero 4 y, padZero 2 m, padZero 2 d) = checkAndFormat y m d := by
  have hl4 : (padZero 4 y).length = 4 := padZero_length (by omega) (by omega : y < 10 ^ 4)
  have hlm : (padZero 2 m).length = 2 := padZero_length (by omega) (by omega : m < 10 ^ 2)
  have hld : (padZero 2 d).length = 2 := padZero_length (by omega) (by omega : d < 10 ^ 2)
  have hs4 : strIsDigit (padZero 4 y) = true :=
    strIsDigit_of_all (padZero_all_digits 4 y) (by intro hnil; rw [hnil] at hl4; simp at hl4)
  have hsm : strIsDigit (padZero 2 m) = true :=
    strIsDigit_of_all (padZero_all_digits 2 m) (by intro hnil; rw [hnil] at hlm; simp at hlm)
  have hsd : strIsDigit (padZero 2 d) = true :=
    strIsDigit_of_all (padZero_all_digits 2 d) (by intro hnil; rw [hnil] at hld; simp at hld)
  rw [normalize3_mk, hs4, hsm, hsd]
  simp only [Bool.and_self, if_true, hl4, if_pos rfl]
  rw [padZero_strToNat, padZero_strToNat, padZero_strToNat]

theorem extract_of_iso {s : String} {g : List Char × List Char × List Char} {r : String}
    (hs : s ≠ "") (h1 : firstMatch matchISOAt s.data = some g)
    (hn : normalize3 g = some r) : extract_date_from_response s = some r := by
  unfold extract_date_from_response
  simp [hs, h1, hn]

theorem firstMatch_empty_none {α : Type} (M : Option Char → List Char → Option α)
    (h : M none [] = none) : firstMatch M ("" : String).data = none := h

theorem daysInMonth_le (y m : Nat) : daysInMonth y m ≤ 31 := by
  unfold daysInMonth
  split_ifs <;> omega

theorem is_valid_date_bounds {y m d : Nat} (h : is_valid_date y m d = true) :
    1 ≤ y ∧ y ≤ 9999 ∧ 1 ≤ m ∧ m ≤ 12 ∧ 1 ≤ d ∧ d ≤ 31 := by
  unfold is_valid_date at h
  simp only [Bool.and_eq_true, decide_eq_true_eq] at h
  have := daysInMonth_le y m
  omega

theorem strptime_ne_empty {e : String} {t : Nat × Nat × Nat}
    (h : strptime_Ymd e = some t) : e ≠ "" := by
  intro hempty
  subst hempty
  rw [(by decide : strptime_Ymd "" = none)] at h
  exact Option.noConfusion h

/-- Full evaluation of `calculate_accuracy_score` on two parseable dates: the
raw-string comparison decides the exact-match branch, the parsed fields decide
the rest, and every confidence is the exact value of the double the source
computes. -/
theorem calculate_accuracy_score_spec (e g : String) (ey em ed gy gm gd : Nat)
    (he : strptime_Ymd e = some (ey, em, ed)) (hg : strptime_Ymd g = some (gy, gm, gd)) :
    calculate_accuracy_score (some e) (some g) =
      if e = g then (true, 1)
      else if ey = gy then
        (true,
          if em = gm then
            (if ed = gd then float_0_7_plus_0_2_plus_0_1 else float_0_7_plus_0_2)
          else
            (if ed = gd then float_0_7_plus_0_1 else float_0_7))
      else
        (false,
          if ((ey : ℤ) - (gy : ℤ)).natAbs ≤ 1 then float_0_3
          else if ((ey : ℤ) - (gy : ℤ)).natAbs ≤ 5 then float_0_1
          else if ((ey : ℤ) - (gy : ℤ)).natAbs ≤ 10 then float_0_05
          else float_0_01) := by
  have hene : e ≠ "" := strptime_ne_empty he
  have hgne : g ≠ "" := strptime_ne_empty hg
  unfold calculate_accuracy_score
  rw [if_neg (by simp [hene, hgne])]
  simp only [he, hg]
  by_cases heq : e = g
  · have hfields : ey = gy := by
      rw [heq] at he
      have h2 := Option.some.inj (he.symm.trans hg)
      rw [Prod.mk.injEq] at h2
      exact h2.1
    simp [heq, hfields]
  · rw [if_neg heq]
    by_cases hy : ey = gy
    · rw [if_pos hy]
      simp [heq, hy]
    · rw [if_neg hy]
      simp [heq, hy]

/-- Every date returned by `extract_date_from_response` was produced by the
normalizer (patterns 1-4): the pattern-5 arm never returns. -/
theorem extract_some_shape {s r : String} (h : extract_date_from_response s = some r) :
    ∃ g, normalize3 g = some r := by
  unfold extract_date_from_response at h
  by_cases hs : s = ""
  · rw [if_pos hs] at h
    exact Option.noConfusion h
  · rw [if_neg hs] at h
    cases h1 : (firstMatch matchISOAt s.data).bind normalize3 with
    | some r1 =>
      simp only [h1] at h
      obtain rfl := Option.some.inj h
      obtain ⟨g, -, hn⟩ := Option.bind_eq_some.mp h1
      exact ⟨g, hn⟩
    | none =>
      simp only [h1] at h
      cases h2 : (firstMatch matchSlashAt s.data).bind normalize3 with
      | some r2 =>
        simp only [h2] at h
        obtain rfl := Option.some.inj h
        obtain ⟨g, -, hn⟩ := Option.bind_eq_some.mp h2
        exact ⟨g, hn⟩
      | none =>
        simp only [h2] at h
        cases h3 : (firstMatch matchMonthFirstAt s.data).bind normalize3 with
        | some r3 =>
          simp only [h3] at h
          obtain rfl := Option.some.inj h
          obtain ⟨g, -, hn⟩ := Option.bind_eq_some.mp h3
          exact ⟨g, hn⟩
        | none =>
          simp only [h3] at h
          cases h4 : (firstMatch matchDayFirstAt s.data).bind normalize3 with
          | some r4 =>
            simp only [h4] at h
            obtain rfl := Option.some.inj h
            obtain ⟨g, -, hn⟩ := Option.bind_eq_some.mp h4
            exact ⟨g, hn⟩
          | none =>
            simp only [h4] at h
            exact Option.noConfusion h

/-! ## Claim theorems -/

/-- C1 (code bug in the source): the spec's bare-year default — a bare 4-digit
year with no other recognized date surface form extracts to `YYYY-01-01` — is
the evident intent, but the program's bare-year arm is dead code: pattern 5
`\b(\d{4})\b` has a single capture group, so `re.findall` returns plain
strings, the captured year has four characters, and neither dispatch test
(`len(match) == 3`, `len(match) == 1`) fires.  On the spec's own example the
program returns `None` instead of `"1969-01-01"`. -/
theorem c1_bare_year_dead :
    firstMatch matchYearAt ("It happened in 1969." : String).data = some ("1969".data) ∧
    ("1969" : String).data.length = 4 ∧
    firstMatch matchISOAt ("It happened in 1969." : String).data = none ∧
    firstMatch matchSlashAt ("It happened in 1969." : String).data = none ∧
    firstMatch matchMonthFirstAt ("It happened in 1969." : String).data = none ∧
    firstMatch matchDayFirstAt ("It happened in 1969." : String).data = none ∧
    extract_date_from_response "It happened in 1969." = none := by
  decide

/-- C2 counterexample: in the text `"2021-02-30 2021-03-15"` the first ISO
occurrence fails calendar validation and a later ISO occurrence is valid, yet
extraction does NOT return the later occurrence `"2021-03-15"`: it abandons
the ISO class after its leftmost match, no other class matches, and — the
bare-year arm being dead code — the result is `None`. -/
theorem c2_counterexample :
    firstMatch matchISOAt ("2021-02-30 2021-03-15" : String).data =
      some ("2021".data, "02".data, "30".data) ∧
    normalize3 ("2021".data, "02".data, "30".data) = none ∧
    matchISOAt (some ' ') ("2021-03-15" : String).data =
      some ("2021".data, "03".data, "15".data) ∧
    normalize3 ("2021".data, "03".data, "15".data) = some "2021-03-15" ∧
    extract_date_from_response "2021-02-30 2021-03-15" = none ∧
    ¬ extract_date_from_response "2021-02-30 2021-03-15" = some "2021-03-15" := by
  decide

/-- C2 (amended): extraction consults only the leftmost match of each pattern
class (`matches[0]`): its result is a function of the leftmost matches of the
four live classes alone, so later occurrences of a class are never examined —
when the leftmost match of a class fails normalization, extraction moves to
the next class, and past the dead bare-year class to `None`. -/
theorem c2_first_match_only (s t : String) (hs : ¬ s = "") (ht : ¬ t = "")
    (h1 : firstMatch matchISOAt s.data = firstMatch matchISOAt t.data)
    (h2 : firstMatch matchSlashAt s.data = firstMatch matchSlashAt t.data)
    (h3 : firstMatch matchMonthFirstAt s.data = firstMatch matchMonthFirstAt t.data)
    (h4 : firstMatch matchDayFirstAt s.data = firstMatch matchDayFirstAt t.data) :
    extract_date_from_response s = extract_date_from_response t := by
  unfold extract_date_from_response
  rw [if_neg hs, if_neg ht]
  simp only [h1, h2, h3, h4]

/-- C2 witness: two different texts with identical leftmost matches extract
identically. -/
theorem c2_first_match_only_witness :
    extract_date_from_response "in 1969" = extract_date_from_response "1969 business" :=
  c2_first_match_only "in 1969" "1969 business" (by decide) (by decide)
    (by decide) (by decide) (by decide) (by decide)

/-- C3 counterexample: when the model-query collaborator fails (`None`
response) the harness does NOT append a result record for the fact — the loop
body hits `continue` and the fact is dropped from the results entirely. -/
theorem c3_counterexample :
    test_model_for_hallucinations get_sample_historical_facts (fun _ => none) = [] ∧
    get_sample_historical_facts ≠ [] := by
  exact ⟨rfl, by decide⟩

/-- C3 (amended): if the model query fails for a fact, the harness skips that
fact — appending no record at all — and continues with the remaining facts
rather than halting the run. -/
theorem c3_skip_on_query_failure (fact : HistoricalFact) (rest : List HistoricalFact)
    (query : String → Option String)
    (h : query (generate_question_from_fact fact) = none) :
    test_model_for_hallucinations (fact :: rest) query =
      test_model_for_hallucinations rest query := by
  simp [test_model_for_hallucinations, h]

/-- C3 witness: a one-fact run with a failing transport produces the same
(empty) results as a zero-fact run. -/
theorem c3_skip_on_query_failure_witness :
    test_model_for_hallucinations
      [⟨"The Titanic sank after hitting an iceberg", "1912-04-15", 1912, 4, 15, "disaster"⟩]
      (fun _ => none) =
    test_model_for_hallucinations [] (fun _ => none) :=
  c3_skip_on_query_failure _ [] _ rfl

/-- C4 counterexample: the claim's year-match case promises the decimal sum
`0.70 + 0.20` (= 9/10) for a year+month match with wrong day, but the program
computes the binary64 sum `0.8999999999999999 ≠ 0.9`. -/
theorem c4_counterexample :
    strptime_Ymd "1969-07-01" = some (1969, 7, 1) ∧
    strptime_Ymd "1969-07-20" = some (1969, 7, 20) ∧
    calculate_accuracy_score (some "1969-07-01") (some "1969-07-20") =
      (true, float_0_7_plus_0_2) ∧
    ¬ float_0_7_plus_0_2 = 7 / 10 + 2 / 10 := by
  refine ⟨by decide, by decide, ?_, by norm_num [float_0_7_plus_0_2]⟩
  have h := calculate_accuracy_score_spec "1969-07-01" "1969-07-20" 1969 7 1 1969 7 20
    (by decide) (by decide)
  rw [h]
  simp +decide

/-- C4 (amended): for parseable extracted and ground-truth dates,
`calculate_accuracy_score` returns `(true, 1.0)` when the raw strings are
equal; `(true, c)` when the year matches but the raw strings differ, where
`c` is the binary64 evaluation of `0.70 + 0.20·[month matches] +
0.10·[day matches]` (`0.7`, `0.7999999999999999`, `0.8999999999999999` or
`0.9999999999999999`); and `(false, c)` with `c` the step function of the
absolute year distance (the doubles `0.30`/`0.10`/`0.05`/`0.01`) otherwise. -/
theorem c4_score_cases (e g : String) (ey em ed gy gm gd : Nat)
    (he : strptime_Ymd e = some (ey, em, ed)) (hg : strptime_Ymd g = some (gy, gm, gd)) :
    calculate_accuracy_score (some e) (some g) =
      if e = g then (true, 1)
      else if ey = gy then
        (true,
          if em = gm then
            (if ed = gd then float_0_7_plus_0_2_plus_0_1 else float_0_7_plus_0_2)
          else
            (if ed = gd then float_0_7_plus_0_1 else float_0_7))
      else
        (false,
          if ((ey : ℤ) - (gy : ℤ)).natAbs ≤ 1 then float_0_3
          else if ((ey : ℤ) - (gy : ℤ)).natAbs ≤ 5 then float_0_1
          else if ((ey : ℤ) - (gy : ℤ)).natAbs ≤ 10 then float_0_05
          else float_0_01) :=
  calculate_accuracy_score_spec e g ey em ed gy gm gd he hg

/-- C4 witness: a year off by one scores `(false, 0.3)`. -/
theorem c4_score_cases_witness :
    calculate_accuracy_score (some "1968-07-20") (some "1969-07-20") =
      (false, float_0_3) := by
  have h := c4_score_cases "1968-07-20" "1969-07-20" 1968 7 20 1969 7 20
    (by decide) (by decide)
  rw [h]
  simp +decide

/-- C5 counterexample: a text containing both a calendar-valid ISO-form date
(`2021-03-15`) and a calendar-valid slash-form date (`7/20/1969`) for which
extraction returns the slash-form date, because an earlier calendar-invalid
ISO-form match (`2021-02-30`) makes the whole ISO class fail. -/
theorem c5_counterexample :
    ("2021-02-30 7/20/1969 2021-03-15" : String).data =
      ("2021-02-30 " : String).data ++ ("7/20/1969 2021-03-15" : String).data ∧
    ("7/20/1969 2021-03-15" : String).data =
      ("7/20/1969 " : String).data ++ ("2021-03-15" : String).data ∧
    matchISOAt (some ' ') ("2021-03-15" : String).data =
      some ("2021".data, "03".data, "15".data) ∧
    normalize3 ("2021".data, "03".data, "15".data) = some "2021-03-15" ∧
    matchSlashAt (some ' ') ("7/20/1969 2021-03-15" : String).data =
      some ("7".data, "20".data, "1969".data) ∧
    normalize3 ("7".data, "20".data, "1969".data) = some "1969-07-20" ∧
    extract_date_from_response "2021-02-30 7/20/1969 2021-03-15" = some "1969-07-20" ∧
    ¬ extract_date_from_response "2021-02-30 7/20/1969 2021-03-15" = some "2021-03-15" := by
  decide

/-- C5 (amended): whenever the leftmost ISO-pattern match of the text
normalizes successfully, extraction returns exactly that date — regardless of
anything else in the text, in particular regardless of slash-form dates and
of their position relative to the ISO date. -/
theorem c5_iso_class_precedence (s : String) (g : List Char × List Char × List Char)
    (r : String) (h1 : firstMatch matchISOAt s.data = some g)
    (hn : normalize3 g = some r) : extract_date_from_response s = some r := by
  have hs : s ≠ "" := by
    intro hemp
    subst hemp
    rw [(by decide : firstMatch matchISOAt ("" : String).data = none)] at h1
    exact Option.noConfusion h1
  exact extract_of_iso hs h1 hn

/-- C5 witness: with the slash date first lexically and the ISO date second,
the ISO date is returned. -/
theorem c5_iso_class_precedence_witness :
    extract_date_from_response "7/20/1969 then 2021-03-15" = some "2021-03-15" :=
  c5_iso_class_precedence "7/20/1969 then 2021-03-15"
    ("2021".data, "03".data, "15".data) "2021-03-15" (by decide) (by decide)

/-- C6: every date returned by extraction is a valid Gregorian calendar date
(exact calendar rules including leap years): each of the four live pattern
classes validates its candidate through `datetime` construction before
serializing it, and the unvalidated bare-year arm is dead code and never
returns.  In particular `"2021-02-30"` is never normalized to a canonical
date: extraction for that text falls through every class and returns
`NotFound`. -/
theorem c6_extraction_validity :
    (∀ s r : String, extract_date_from_response s = some r →
      ∃ y m d, is_valid_date y m d = true ∧ r = format_date y m d) ∧
    extract_date_from_response "2021-02-30" = none := by
  constructor
  · intro s r h
    obtain ⟨g, hn⟩ := extract_some_shape h
    exact normalize3_some hn
  · decide

/-- C6 witness: `"2021-03-15"` extracts to itself, a validated calendar
date. -/
theorem c6_extraction_validity_witness :
    extract_date_from_response "2021-03-15" = some "2021-03-15" ∧
    ∃ y m d, is_valid_date y m d = true ∧ ("2021-03-15" : String) = format_date y m d :=
  ⟨by decide, c6_extraction_validity.1 "2021-03-15" "2021-03-15" (by decide)⟩

/-- C7: an absent (`NotFound`) extracted date scores `(false, 0.0)` for every
ground truth, and an absent ground truth scores `(false, 0.0)` for every
extracted date. -/
theorem c7_absent_scores_zero :
    (∀ g : Option String, calculate_accuracy_score none g = (false, 0)) ∧
    (∀ e : Option String, calculate_accuracy_score e none = (false, 0)) := by
  constructor
  · intro g
    simp [calculate_accuracy_score]
  · intro e
    simp [calculate_accuracy_score]

/-- C8: extraction and scoring are total functions of their string inputs
(modelled without partiality), and the confidence component of every score is
in the closed interval `[0, 1]`. -/
theorem c8_confidence_bounds (e g : Option String) :
    0 ≤ (calculate_accuracy_score e g).2 ∧ (calculate_accuracy_score e g).2 ≤ 1 := by
  rcases e with _ | e'
  · simp [calculate_accuracy_score]
  · rcases g with _ | g'
    · simp [calculate_accuracy_score]
    · by_cases hguard : (some e' = (none : Option String) ∨ some e' = some "" ∨
        some g' = (none : Option String) ∨ some g' = some "")
      · unfold calculate_accuracy_score
        rw [if_pos hguard]
        norm_num
      · unfold calculate_accuracy_score
        rw [if_neg hguard]
        cases hpe : strptime_Ymd e' with
        | none => simp [hpe]
        | some t1 =>
          cases hpg : strptime_Ymd g' with
          | none => simp [hpe, hpg]
          | some t2 =>
            obtain ⟨ey, em, ed⟩ := t1
            obtain ⟨gy, gm, gd⟩ := t2
            simp only [hpe, hpg]
            split_ifs <;>
              norm_num [float_0_7, float_0_3, float_0_1, float_0_05, float_0_01,
                float_0_7_plus_0_2, float_0_7_plus_0_1, float_0_7_plus_0_2_plus_0_1]

/-- C9: serializing any `datetime`-constructible triple to zero-padded
`YYYY-MM-DD` form and re-extracting yields the same serialized date, and the
leftmost ISO-pattern match's captured groups re-parse to the identical
(year, month, day) triple. -/
theorem c9_round_trip (y m d : Nat) (h : is_valid_date y m d = true) :
    extract_date_from_response (format_date y m d) = some (format_date y m d) ∧
    ∃ g : List Char × List Char × List Char,
      firstMatch matchISOAt (format_date y m d).data = some g ∧
      strToNat g.1 = y ∧ strToNat g.2.1 = m ∧ strToNat g.2.2 = d := by
  obtain ⟨-, hy, -, hm12, -, hd31⟩ := is_valid_date_bounds h
  have hm : m ≤ 99 := by omega
  have hd : d ≤ 99 := by omega
  have hfm := firstMatch_of_matchAt0 _ _ _ (matchISOAt_format hy hm hd)
  have hnorm : normalize3 (padZero 4 y, padZero 2 m, padZero 2 d) =
      some (format_date y m d) := by
    rw [normalize3_format hy hm hd]
    unfold checkAndFormat
    rw [if_pos h]
  exact ⟨extract_of_iso (format_date_ne_empty y m d) hfm hnorm,
    ⟨(padZero 4 y, padZero 2 m, padZero 2 d), hfm, padZero_strToNat 4 y,
      padZero_strToNat 2 m, padZero_strToNat 2 d⟩⟩

/-- C9 witness: the valid triple (2021, 3, 15) round-trips. -/
theorem c9_round_trip_witness :
    is_valid_date 2021 3 15 = true ∧
    extract_date_from_response (format_date 2021 3 15) = some (format_date 2021 3 15) :=
  ⟨by decide, (c9_round_trip 2021 3 15 (by decide)).1⟩

/-- C10 counterexample: for field-equal but textually different parseable
dates the program does NOT return `(true, 1.0)`: the bonus path computes
`0.7 + 0.2 + 0.1` in binary64, which is `0.9999999999999999 ≠ 1.0`. -/
theorem c10_counterexample :
    strptime_Ymd "1969-07-20" = some (1969, 7, 20) ∧
    strptime_Ymd "1969-7-20" = some (1969, 7, 20) ∧
    ¬ ("1969-07-20" : String) = "1969-7-20" ∧
    calculate_accuracy_score (some "1969-07-20") (some "1969-7-20") =
      (true, float_0_7_plus_0_2_plus_0_1) ∧
    ¬ float_0_7_plus_0_2_plus_0_1 = 1 := by
  refine ⟨by decide, by decide, by decide, ?_,
    by norm_num [float_0_7_plus_0_2_plus_0_1]⟩
  have h := calculate_accuracy_score_spec "1969-07-20" "1969-7-20" 1969 7 20 1969 7 20
    (by decide) (by decide)
  rw [h]
  simp +decide

/-- C10 (amended): two parseable date strings with identical year, month and
day fields but different raw text score `(true, c)` where `c` is the binary64
sum `0.7 + 0.2 + 0.1 = 0.9999999999999999`, strictly below `1.0`: the boolean
correctness flag is still `true`, but the confidence falls one unit in the
last place short of the full score, which is reached only when the raw
strings are equal. -/
theorem c10_field_equality_near_full (e g : String) (y m d : Nat)
    (he : strptime_Ymd e = some (y, m, d)) (hg : strptime_Ymd g = some (y, m, d))
    (hne : ¬ e = g) :
    calculate_accuracy_score (some e) (some g) = (true, float_0_7_plus_0_2_plus_0_1) ∧
    float_0_7_plus_0_2_plus_0_1 < 1 := by
  have h := calculate_accuracy_score_spec e g y m d y m d he hg
  rw [h]
  refine ⟨?_, by norm_num [float_0_7_plus_0_2_plus_0_1]⟩
  rw [if_neg hne, if_pos rfl]
  simp

/-- C10 witness: the unpadded ground truth `"1969-7-20"` against the canonical
`"1969-07-20"`. -/
theorem c10_field_equality_near_full_witness :
    calculate_accuracy_score (some "1969-07-20") (some "1969-7-20") =
      (true, float_0_7_plus_0_2_plus_0_1) ∧
    float_0_7_plus_0_2_plus_0_1 < 1 :=
  c10_field_equality_near_full "1969-07-20" "1969-7-20" 1969 7 20
    (by decide) (by decide) (by decide)

end V2
